import Mathlib

/-!
# Verification of the Inventory Unit Conversion engine

Shallow embedding of the core logic of `src/InventoryUnitConverter.js`:
the conversion engine (`convertUnit`), the item standardizer
(`standardizeItem`), the batch processor (`processInventoryData`) and the
direct conversion API (`convertUnits`).

Modelling choices:
* JavaScript numbers are modelled as exact rationals (`ℚ`); `Math.round`
  is the function it computes on exact values, `⌊x + 1/2⌋` (half toward +∞).
* JavaScript objects acting as string-keyed maps (`conversionRules`,
  `rule.products`, `standardizedUnits`) are association lists.
* Thrown exceptions are `Except String`; a JS `try/catch` is a `match` on
  the `Except` value.
* JS truthiness tests on the item fields (`!sku`, `!quantity`, `!unit`,
  `sku && products[sku]`) are modelled exactly: a missing field or the
  empty string is falsy for strings, a missing field or `0` is falsy for
  numbers.
* The non-finite IEEE value produced by an unguarded division by zero in
  `convertUnits` is modelled as `none` in an `Option ℚ` field.
-/

namespace InventoryUnitConverter

/-- A conversion rule: `{ default: number, products: {sku: number} }`. -/
structure ConversionRule where
  defaultFactor : ℚ
  products : List (String × ℚ)
deriving DecidableEq, Repr

/-- The conversion table (`conversion-master.json` once loaded). -/
structure ConversionTable where
  version : String
  supportedUnits : List String
  conversionRules : List (String × ConversionRule)
  unitHierarchy : List String
deriving DecidableEq, Repr

/-- JS `Array.prototype.indexOf`: index of the first occurrence, `-1` when
absent. -/
def jsIndexOf (l : List String) (s : String) : ℤ :=
  match l.findIdx? (fun x => x == s) with
  | some i => (i : ℤ)
  | none => -1

/-- JS `Math.round` on an exact value: nearest integer, halves toward `+∞`. -/
def jsRound (x : ℚ) : ℤ := ⌊x + 1/2⌋

/-- `Math.round(result * 100) / 100`: round to two decimal places. -/
def round2 (x : ℚ) : ℚ := (jsRound (x * 100) : ℚ) / 100

/-- Factor resolution
`(sku && rules.products[sku]) ? rules.products[sku] : rules.default`:
the product override is used only when `sku` is truthy (present and
non-empty) and the looked-up factor is truthy (present and non-zero). -/
def resolveFactor (rules : ConversionRule) (sku : Option String) : ℚ :=
  match sku with
  | none => rules.defaultFactor
  | some s =>
    if s = "" then rules.defaultFactor
    else
      match rules.products.lookup s with
      | none => rules.defaultFactor
      | some v => if v = 0 then rules.defaultFactor else v

/-- The pre-rounding result of a non-identity conversion: divide when the
source unit sits strictly lower in `unitHierarchy` than the target,
multiply otherwise. -/
def rawResult (tbl : ConversionTable) (quantity : ℚ) (fromUnit toUnit : String)
    (rules : ConversionRule) (sku : Option String) : ℚ :=
  if jsIndexOf tbl.unitHierarchy fromUnit < jsIndexOf tbl.unitHierarchy toUnit then
    quantity / resolveFactor rules sku
  else
    quantity * resolveFactor rules sku

/-- `convertUnit(quantity, fromUnit, toUnit, sku = null)`. -/
def convertUnit (tbl : ConversionTable) (quantity : ℚ) (fromUnit toUnit : String)
    (sku : Option String) : Except String ℚ :=
  if fromUnit = toUnit then .ok quantity
  else
    match tbl.conversionRules.lookup (fromUnit ++ "_TO_" ++ toUnit) with
    | none => .error ("No conversion rule found for " ++ fromUnit ++ " to " ++ toUnit)
    | some rules => .ok (round2 (rawResult tbl quantity fromUnit toUnit rules sku))

/-- An inbound inventory item; `none` models a missing field, the `rest`
association list models the arbitrary passthrough fields. -/
structure Item where
  sku : Option String
  quantity : Option ℚ
  unit : Option String
  rest : List (String × String)
deriving DecidableEq, Repr

/-- JS falsiness of an optional string field (`undefined` or `""`). -/
def strFalsy : Option String → Bool
  | none => true
  | some s => s == ""

/-- JS falsiness of an optional numeric field (`undefined` or `0`). -/
def numFalsy : Option ℚ → Bool
  | none => true
  | some q => decide (q = 0)

/-- The validation error message of `standardizeItem`. -/
def missingFieldsMsg : String := "Missing required fields: sku, quantity, unit"

/-- The payload-validation error message of `processInventoryData`. -/
def invalidFormatMsg : String := "Invalid inventory data format. Expected \x7b items: [] \x7d"

/-- The success shape produced by `standardizeItem` (the `convertedAt`
timestamp, pure I/O, is not modelled). -/
structure StandardizedItem where
  rest : List (String × String)
  sku : String
  originalQuantity : ℚ
  originalUnit : String
  standardizedUnits : List (String × ℚ)
deriving DecidableEq, Repr

/-- `standardizeItem` returns either a standardized item or an error
record `{...item, error}` carrying the original item and a message. -/
inductive StdResult where
  | standardized (s : StandardizedItem)
  | errorRecord (item : Item) (msg : String)
deriving DecidableEq, Repr

/-- The conversion loop of `standardizeItem`: for each supported target
unit assign the quantity directly when it equals the item's unit, else
call the engine; the first thrown error aborts the loop. -/
def convertAll (tbl : ConversionTable) (q : ℚ) (unit sku : String) :
    List String → Except String (List (String × ℚ))
  | [] => .ok []
  | u :: us =>
    match (if unit = u then .ok q else convertUnit tbl q unit u (some sku)) with
    | .error e => .error e
    | .ok v =>
      match convertAll tbl q unit sku us with
      | .error e => .error e
      | .ok rest => .ok ((u, v) :: rest)

/-- `standardizeItem(item)`. -/
def standardizeItem (tbl : ConversionTable) (item : Item) : StdResult :=
  if strFalsy item.sku || numFalsy item.quantity || strFalsy item.unit then
    .errorRecord item missingFieldsMsg
  else
    match convertAll tbl (item.quantity.getD 0) (item.unit.getD "") (item.sku.getD "")
        tbl.supportedUnits with
    | .error e => .errorRecord item e
    | .ok convs =>
      .standardized
        { rest := item.rest
          sku := item.sku.getD ""
          originalQuantity := item.quantity.getD 0
          originalUnit := item.unit.getD ""
          standardizedUnits := convs }

/-- An inbound batch payload: `items : none` models a missing or
non-array `items` field, `meta` the arbitrary passthrough metadata. -/
structure Payload where
  items : Option (List Item)
  meta : List (String × String)
deriving DecidableEq, Repr

/-- The batch result (`processedAt`, pure I/O, is not modelled). -/
structure Batch where
  meta : List (String × String)
  items : List StdResult
  conversionVersion : String
deriving DecidableEq, Repr

/-- `processInventoryData(data)`. -/
def processInventoryData (tbl : ConversionTable) (p : Payload) : Except String Batch :=
  match p.items with
  | none => .error invalidFormatMsg
  | some its =>
    .ok { meta := p.meta
          items := its.map (standardizeItem tbl)
          conversionVersion := tbl.version }

/-- An item of the direct-conversion payload `{sku, quantity, unit}`. -/
structure DirectItem where
  sku : Option String
  quantity : ℚ
  unit : String
  rest : List (String × String)
deriving DecidableEq, Repr

/-- The result shape of `convertUnits` for one item: the original fields
plus the three computed ones; `conversionFactor = none` models the
non-finite IEEE value from the unguarded division by a zero quantity. -/
structure ConvertedItem where
  item : DirectItem
  convertedQuantity : ℚ
  convertedUnit : String
  conversionFactor : Option ℚ
deriving DecidableEq, Repr

/-- `convertUnits(items, targetUnit)`: `items.map(...)` where the engine
may throw; the first thrown error aborts the whole call. -/
def convertUnits (tbl : ConversionTable) : List DirectItem → String →
    Except String (List ConvertedItem)
  | [], _ => .ok []
  | it :: its, target =>
    match convertUnit tbl it.quantity it.unit target it.sku with
    | .error e => .error e
    | .ok c =>
      match convertUnits tbl its target with
      | .error e => .error e
      | .ok rest =>
        .ok ({ item := it
               convertedQuantity := c
               convertedUnit := target
               conversionFactor :=
                 if it.quantity = 0 then none else some (c / it.quantity) } :: rest)

/-- Rounding as the spec words it: round-half-away-from-zero.
Modelled from the spec's rounding-policy sentence, for comparison with
the engine's actual rounding. -/
def roundHalfAwayFromZero (x : ℚ) : ℤ :=
  if 0 ≤ x then ⌊x + 1/2⌋ else -⌊-x + 1/2⌋

/-- The spec's claimed two-decimal rounding policy. -/
def specRound2 (x : ℚ) : ℚ := (roundHalfAwayFromZero (x * 100) : ℚ) / 100

/-- The conversion table of the spec's concrete scenario (§8). -/
def demoTable : ConversionTable :=
  { version := "1.0.0"
    supportedUnits := ["PIECE", "BOX", "CARTON"]
    conversionRules :=
      [("PIECE_TO_BOX", ⟨12, [("SKU001", 10)]⟩),
       ("BOX_TO_CARTON", ⟨8, []⟩),
       ("PIECE_TO_CARTON", ⟨96, [("SKU001", 80)]⟩)]
    unitHierarchy := ["PIECE", "BOX", "CARTON"] }

/-- Whether a standardization result is an error record. -/
def isErrorRecord : StdResult → Bool
  | .errorRecord _ _ => true
  | .standardized _ => false

/-- Whether a standardization result is a successful standardized item. -/
def isStandardized : StdResult → Bool
  | .standardized _ => true
  | .errorRecord _ _ => false

/-- A one-unit table used to witness the batch-processor properties. -/
def smallTable : ConversionTable :=
  { version := "w", supportedUnits := ["PIECE"], conversionRules := [],
    unitHierarchy := ["PIECE"] }

/-- An item whose `sku` is missing. -/
def itemNoSku : Item := { sku := none, quantity := some 1, unit := some "PIECE", rest := [] }

/-- A well-formed item that standardizes successfully under `smallTable`. -/
def itemGood : Item := { sku := some "A", quantity := some 1, unit := some "PIECE", rest := [] }

/-- Claim C1: for a non-identity conversion whose rule exists and whose two
units both occur in `unitHierarchy`, the engine divides the quantity by the
resolved factor when the index of `fromUnit` is strictly below the index of
`toUnit` and multiplies by it otherwise, and only then rounds. -/
theorem convertUnit_direction (tbl : ConversionTable) (q : ℚ) (u v : String)
    (sku : Option String) (r : ConversionRule)
    (hne : u ≠ v)
    (hu : u ∈ tbl.unitHierarchy) (hv : v ∈ tbl.unitHierarchy)
    (hr : List.lookup (u ++ "_TO_" ++ v) tbl.conversionRules = some r) :
    convertUnit tbl q u v sku =
      .ok (round2
        (if jsIndexOf tbl.unitHierarchy u < jsIndexOf tbl.unitHierarchy v
         then q / resolveFactor r sku
         else q * resolveFactor r sku)) := by
  simp [convertUnit, hne, hr, rawResult]

/-- Witness for C1: the concrete conversion of 100 PIECE toward BOX in the
demo table takes the division branch of the direction test. -/
theorem convertUnit_direction_witness :
    convertUnit demoTable 100 "PIECE" "BOX" none =
      .ok (round2
        (if jsIndexOf demoTable.unitHierarchy "PIECE" <
            jsIndexOf demoTable.unitHierarchy "BOX"
         then 100 / resolveFactor ⟨12, [("SKU001", 10)]⟩ none
         else 100 * resolveFactor ⟨12, [("SKU001", 10)]⟩ none)) :=
  convertUnit_direction demoTable 100 "PIECE" "BOX" none ⟨12, [("SKU001", 10)]⟩
    (by decide) (by decide) (by decide) (by decide)

/-- Counterexample to C2 as stated: converting -0.06 PIECE to BOX under the
default factor 12 has exact pre-rounding result -0.005; the engine rounds
halves toward +∞ and returns 0, while the round-half-away-from-zero policy
the claim states would give -0.01. -/
theorem convertUnit_not_half_away_from_zero :
    convertUnit demoTable (-6/100) "PIECE" "BOX" none = .ok 0 ∧
    rawResult demoTable (-6/100) "PIECE" "BOX" ⟨12, [("SKU001", 10)]⟩ none = -1/200 ∧
    specRound2 (-1/200) = -1/100 ∧ (0 : ℚ) ≠ -1/100 := by
  have h1 : List.lookup "PIECE_TO_BOX" demoTable.conversionRules
      = some ⟨12, [("SKU001", 10)]⟩ := by decide
  have h2 : jsIndexOf demoTable.unitHierarchy "PIECE" = 0 := by decide
  have h3 : jsIndexOf demoTable.unitHierarchy "BOX" = 1 := by decide
  refine ⟨?_, ?_, ?_, by norm_num⟩
  · simp [convertUnit, h1, h2, h3, rawResult, resolveFactor, round2, jsRound]
    norm_num
  · simp [rawResult, h2, h3, resolveFactor]
    norm_num
  · simp [specRound2, roundHalfAwayFromZero]
    norm_num

/-- Claim C2 (amended): every non-identity conversion whose rule exists
returns an integer count n of hundredths with n ≤ raw × 100 + 1/2 < n + 1 —
that is, round-half-toward-+∞ (JS `Math.round`) applied to the pre-rounding
result × 100, divided by 100; converting 100 PIECE to BOX under the default
factor 12 with no product override yields 8.33. -/
theorem convertUnit_rounds_half_up (tbl : ConversionTable) (q : ℚ) (u v : String)
    (sku : Option String) (r : ConversionRule)
    (hne : u ≠ v)
    (hr : List.lookup (u ++ "_TO_" ++ v) tbl.conversionRules = some r) :
    (∃ n : ℤ, convertUnit tbl q u v sku = .ok ((n : ℚ) / 100) ∧
      (n : ℚ) ≤ rawResult tbl q u v r sku * 100 + 1/2 ∧
      rawResult tbl q u v r sku * 100 + 1/2 < n + 1) ∧
    convertUnit demoTable 100 "PIECE" "BOX" none = .ok (833/100) := by
  constructor
  · refine ⟨jsRound (rawResult tbl q u v r sku * 100), ?_, ?_, ?_⟩
    · simp [convertUnit, hne, hr, round2]
    · exact Int.floor_le _
    · exact Int.lt_floor_add_one _
  · have h1 : List.lookup "PIECE_TO_BOX" demoTable.conversionRules
        = some ⟨12, [("SKU001", 10)]⟩ := by decide
    have h2 : jsIndexOf demoTable.unitHierarchy "PIECE" = 0 := by decide
    have h3 : jsIndexOf demoTable.unitHierarchy "BOX" = 1 := by decide
    simp [convertUnit, h1, h2, h3, rawResult, resolveFactor, round2, jsRound]
    norm_num

/-- Witness for the amended C2: the 100 PIECE to BOX conversion produces a
whole number of hundredths bracketing its raw result times 100 plus a half. -/
theorem convertUnit_rounds_half_up_witness :
    ∃ n : ℤ, convertUnit demoTable 100 "PIECE" "BOX" none = .ok ((n : ℚ) / 100) ∧
      (n : ℚ) ≤ rawResult demoTable 100 "PIECE" "BOX" ⟨12, [("SKU001", 10)]⟩ none * 100 + 1/2 ∧
      rawResult demoTable 100 "PIECE" "BOX" ⟨12, [("SKU001", 10)]⟩ none * 100 + 1/2 < n + 1 :=
  (convertUnit_rounds_half_up demoTable 100 "PIECE" "BOX" none ⟨12, [("SKU001", 10)]⟩
    (by decide) (by decide)).1

/-- Claim C4: for a non-identity conversion whose rule exists, a
product-specific factor (positive, per the data model's factor invariant)
present for the given non-empty sku strictly takes precedence over the
default factor; when the sku is absent from `products`, or no productId is
given at all, the default factor is used. -/
theorem convertUnit_override_precedence (tbl : ConversionTable) (q : ℚ)
    (u v : String) (r : ConversionRule) (hne : u ≠ v)
    (hr : List.lookup (u ++ "_TO_" ++ v) tbl.conversionRules = some r) :
    (∀ s f, s ≠ "" → List.lookup s r.products = some f → 0 < f →
      convertUnit tbl q u v (some s) =
        .ok (round2
          (if jsIndexOf tbl.unitHierarchy u < jsIndexOf tbl.unitHierarchy v
           then q / f else q * f))) ∧
    (∀ s, s ≠ "" → List.lookup s r.products = none →
      convertUnit tbl q u v (some s) =
        .ok (round2
          (if jsIndexOf tbl.unitHierarchy u < jsIndexOf tbl.unitHierarchy v
           then q / r.defaultFactor else q * r.defaultFactor))) ∧
    convertUnit tbl q u v none =
      .ok (round2
        (if jsIndexOf tbl.unitHierarchy u < jsIndexOf tbl.unitHierarchy v
         then q / r.defaultFactor else q * r.defaultFactor)) := by
  refine ⟨?_, ?_, ?_⟩
  · intro s f hs hf hpos
    simp [convertUnit, hne, hr, rawResult, resolveFactor, hs, hf, hpos.ne.symm]
  · intro s hs hf
    simp [convertUnit, hne, hr, rawResult, resolveFactor, hs, hf]
  · simp [convertUnit, hne, hr, rawResult, resolveFactor]

/-- Witness for C4: SKU001 carries a PIECE-to-BOX override of 10 in the demo
table, and the 120 PIECE to BOX conversion for it uses 10, not the default 12. -/
theorem convertUnit_override_precedence_witness :
    convertUnit demoTable 120 "PIECE" "BOX" (some "SKU001") =
      .ok (round2
        (if jsIndexOf demoTable.unitHierarchy "PIECE" <
            jsIndexOf demoTable.unitHierarchy "BOX"
         then 120 / 10 else 120 * 10)) :=
  (convertUnit_override_precedence demoTable 120 "PIECE" "BOX"
    ⟨12, [("SKU001", 10)]⟩ (by decide) (by decide)).1
    "SKU001" 10 (by decide) (by decide) (by norm_num)

/-- Claim C3: the identity conversion returns the quantity unchanged for
every table, quantity, unit and (possibly absent) sku — no rule lookup, no
rounding. -/
theorem convertUnit_identity (tbl : ConversionTable) (q : ℚ) (u : String)
    (sku : Option String) : convertUnit tbl q u u sku = .ok q := by
  simp [convertUnit]

/-- Claim C5: when the direction key has no entry in `conversionRules` and
the conversion is not an identity, the engine fails with the
no-rule-found error naming the two units, whatever the quantity. -/
theorem convertUnit_no_rule (tbl : ConversionTable) (q : ℚ) (u v : String)
    (sku : Option String) (hne : u ≠ v)
    (hr : List.lookup (u ++ "_TO_" ++ v) tbl.conversionRules = none) :
    convertUnit tbl q u v sku =
      .error ("No conversion rule found for " ++ u ++ " to " ++ v) := by
  simp [convertUnit, hne, hr]

/-- Witness for C5: the demo table carries no BOX-to-PIECE rule, so that
conversion fails with the message naming both units. -/
theorem convertUnit_no_rule_witness :
    convertUnit demoTable 5 "BOX" "PIECE" none =
      .error ("No conversion rule found for " ++ "BOX" ++ " to " ++ "PIECE") :=
  convertUnit_no_rule demoTable 5 "BOX" "PIECE" none (by decide) (by decide)

/-- The keys of a successful conversion loop are exactly the supported
units it was run over, in order. -/
theorem convertAll_ok_keys (tbl : ConversionTable) (q : ℚ) (unit sku : String) :
    ∀ {l : List String} {cs : List (String × ℚ)},
      convertAll tbl q unit sku l = .ok cs → cs.map Prod.fst = l := by
  intro l
  induction l with
  | nil =>
    intro cs h
    simp only [convertAll, Except.ok.injEq] at h
    simp [← h]
  | cons u us ih =>
    intro cs h
    rw [convertAll] at h
    cases hv : (if unit = u then (Except.ok q : Except String ℚ)
        else convertUnit tbl q unit u (some sku)) with
    | error e => rw [hv] at h; exact absurd h (by simp)
    | ok v =>
      rw [hv] at h
      cases hrec : convertAll tbl q unit sku us with
      | error e => rw [hrec] at h; exact absurd h (by simp)
      | ok rest =>
        rw [hrec] at h
        simp only [Except.ok.injEq] at h
        rw [← h]
        simp [ih hrec]

/-- In a successful conversion loop, every entry keyed by the item's own
unit carries the original quantity. -/
theorem convertAll_ok_self (tbl : ConversionTable) (q : ℚ) (unit sku : String) :
    ∀ {l : List String} {cs : List (String × ℚ)},
      convertAll tbl q unit sku l = .ok cs →
      ∀ p ∈ cs, p.1 = unit → p.2 = q := by
  intro l
  induction l with
  | nil =>
    intro cs h
    simp only [convertAll, Except.ok.injEq] at h
    simp [← h]
  | cons u us ih =>
    intro cs h
    rw [convertAll] at h
    by_cases hq : unit = u
    · rw [if_pos hq] at h
      cases hrec : convertAll tbl q unit sku us with
      | error e => rw [hrec] at h; exact absurd h (by simp)
      | ok rest =>
        rw [hrec] at h
        simp only [Except.ok.injEq] at h
        rw [← h]
        intro p hp hp1
        rcases List.mem_cons.mp hp with h1 | h1
        · rw [h1]
        · exact ih hrec p h1 hp1
    · rw [if_neg hq] at h
      cases hv : convertUnit tbl q unit u (some sku) with
      | error e => rw [hv] at h; exact absurd h (by simp)
      | ok v =>
        rw [hv] at h
        cases hrec : convertAll tbl q unit sku us with
        | error e => rw [hrec] at h; exact absurd h (by simp)
        | ok rest =>
          rw [hrec] at h
          simp only [Except.ok.injEq] at h
          rw [← h]
          intro p hp hp1
          rcases List.mem_cons.mp hp with h1 | h1
          · rw [h1] at hp1
            exact absurd hp1.symm hq
          · exact ih hrec p h1 hp1

/-- A failing conversion loop fails with the error message of an engine
call on one of the supported units, a unit different from the item's own. -/
theorem convertAll_error_exists (tbl : ConversionTable) (q : ℚ) (unit sku : String) :
    ∀ {l : List String} {e : String},
      convertAll tbl q unit sku l = .error e →
      ∃ x ∈ l, x ≠ unit ∧ convertUnit tbl q unit x (some sku) = .error e := by
  intro l
  induction l with
  | nil =>
    intro e h
    exact absurd h (by simp [convertAll])
  | cons u us ih =>
    intro e h
    rw [convertAll] at h
    by_cases hq : unit = u
    · rw [if_pos hq] at h
      cases hrec : convertAll tbl q unit sku us with
      | error e2 =>
        rw [hrec] at h
        simp only [Except.error.injEq] at h
        obtain ⟨x, hx, hxu, hxe⟩ := ih (h ▸ hrec)
        exact ⟨x, List.mem_cons_of_mem u hx, hxu, hxe⟩
      | ok rest => rw [hrec] at h; exact absurd h (by simp)
    · rw [if_neg hq] at h
      cases hv : convertUnit tbl q unit u (some sku) with
      | error e2 =>
        rw [hv] at h
        simp only [Except.error.injEq] at h
        exact ⟨u, List.mem_cons_self u us, fun he => hq he.symm, h ▸ hv⟩
      | ok v =>
        rw [hv] at h
        cases hrec : convertAll tbl q unit sku us with
        | error e2 =>
          rw [hrec] at h
          simp only [Except.error.injEq] at h
          obtain ⟨x, hx, hxu, hxe⟩ := ih (h ▸ hrec)
          exact ⟨x, List.mem_cons_of_mem u hx, hxu, hxe⟩
        | ok rest => rw [hrec] at h; exact absurd h (by simp)

/-- If the engine fails on any supported unit other than the item's own,
the conversion loop fails. -/
theorem convertAll_error_of_exists (tbl : ConversionTable) (q : ℚ) (unit sku : String) :
    ∀ {l : List String},
      (∃ x ∈ l, x ≠ unit ∧ ∃ e, convertUnit tbl q unit x (some sku) = .error e) →
      ∃ e2, convertAll tbl q unit sku l = .error e2 := by
  intro l
  induction l with
  | nil =>
    rintro ⟨x, hx, -⟩
    exact absurd hx (by simp)
  | cons u us ih =>
    rintro ⟨x, hx, hxu, e, he⟩
    rcases List.mem_cons.mp hx with h1 | h1
    · have hq : unit ≠ u := fun h2 => hxu (h1 ▸ h2.symm)
      subst h1
      refine ⟨e, ?_⟩
      rw [convertAll, if_neg hq, he]
    · by_cases hq : unit = u
      · obtain ⟨e2, he2⟩ := ih ⟨x, h1, hxu, e, he⟩
        refine ⟨e2, ?_⟩
        rw [convertAll, if_pos hq, he2]
      · cases hv : convertUnit tbl q unit u (some sku) with
        | error e0 =>
          refine ⟨e0, ?_⟩
          rw [convertAll, if_neg hq, hv]
        | ok v =>
          obtain ⟨e2, he2⟩ := ih ⟨x, h1, hxu, e, he⟩
          refine ⟨e2, ?_⟩
          rw [convertAll, if_neg hq, hv, he2]

/-- An item failing the field validation is turned into an error record
carrying the original item and the missing-fields message. -/
theorem standardizeItem_missing_fields (tbl : ConversionTable) (item : Item)
    (h : (strFalsy item.sku || numFalsy item.quantity || strFalsy item.unit) = true) :
    standardizeItem tbl item = .errorRecord item missingFieldsMsg := by
  simp [standardizeItem, h]

/-- A valid item's standardization is the outcome of the conversion loop. -/
theorem standardizeItem_valid_eq (tbl : ConversionTable) (item : Item)
    (s : String) (q : ℚ) (u : String)
    (hs : item.sku = some s) (hq : item.quantity = some q) (hu : item.unit = some u)
    (hval : (strFalsy item.sku || numFalsy item.quantity || strFalsy item.unit) = false) :
    standardizeItem tbl item =
      match convertAll tbl q u s tbl.supportedUnits with
      | .error e => .errorRecord item e
      | .ok convs =>
        .standardized
          { rest := item.rest, sku := s, originalQuantity := q,
            originalUnit := u, standardizedUnits := convs } := by
  rw [standardizeItem, if_neg (by simp [hval]), hs, hq, hu]
  rfl

/-- Claim C6: for an item passing field validation, an engine failure on
any supported target unit makes the standardizer return an error record of
the original item plus an engine failure message and no standardized-units
mapping, while a successful standardization carries a complete mapping —
one entry per supported unit, in order, with the original unit mapped to
the original quantity. -/
theorem standardizeItem_abort_or_complete (tbl : ConversionTable) (item : Item)
    (s : String) (q : ℚ) (u : String)
    (hs : item.sku = some s) (hq : item.quantity = some q) (hu : item.unit = some u)
    (hvs : s ≠ "") (hvq : q ≠ 0) (hvu : u ≠ "") :
    ((∃ x ∈ tbl.supportedUnits, x ≠ u ∧
        ∃ e, convertUnit tbl q u x (some s) = .error e) →
      ∃ msg, standardizeItem tbl item = .errorRecord item msg ∧
        ∃ x ∈ tbl.supportedUnits, convertUnit tbl q u x (some s) = .error msg) ∧
    (∀ r, standardizeItem tbl item = .standardized r →
      r.standardizedUnits.map Prod.fst = tbl.supportedUnits ∧
      ∀ p ∈ r.standardizedUnits, p.1 = u → p.2 = q) := by
  have hval : (strFalsy item.sku || numFalsy item.quantity || strFalsy item.unit) = false := by
    simp [hs, hq, hu, strFalsy, numFalsy, hvs, hvq, hvu]
  have hstd := standardizeItem_valid_eq tbl item s q u hs hq hu hval
  constructor
  · intro hex
    obtain ⟨e2, he2⟩ := convertAll_error_of_exists tbl q u s hex
    refine ⟨e2, ?_, ?_⟩
    · rw [hstd, he2]
    · obtain ⟨x, hx, _, hxe⟩ := convertAll_error_exists tbl q u s he2
      exact ⟨x, hx, hxe⟩
  · intro r hr
    rw [hstd] at hr
    cases hconv : convertAll tbl q u s tbl.supportedUnits with
    | error e => rw [hconv] at hr; exact absurd hr (by simp)
    | ok convs =>
      rw [hconv] at hr
      simp only [StdResult.standardized.injEq] at hr
      rw [← hr]
      exact ⟨convertAll_ok_keys tbl q u s hconv, convertAll_ok_self tbl q u s hconv⟩

/-- Witness for C6: the scenario item of the demo table satisfies the
standardizer's abort-or-complete contract. -/
theorem standardizeItem_abort_or_complete_witness :
    ((∃ x ∈ demoTable.supportedUnits, x ≠ "PIECE" ∧
        ∃ e, convertUnit demoTable 120 "PIECE" x (some "SKU001") = .error e) →
      ∃ msg, standardizeItem demoTable
          { sku := some "SKU001", quantity := some 120, unit := some "PIECE", rest := [] } =
          .errorRecord
            { sku := some "SKU001", quantity := some 120, unit := some "PIECE", rest := [] } msg ∧
        ∃ x ∈ demoTable.supportedUnits,
          convertUnit demoTable 120 "PIECE" x (some "SKU001") = .error msg) ∧
    (∀ r, standardizeItem demoTable
        { sku := some "SKU001", quantity := some 120, unit := some "PIECE", rest := [] } =
        .standardized r →
      r.standardizedUnits.map Prod.fst = demoTable.supportedUnits ∧
      ∀ p ∈ r.standardizedUnits, p.1 = "PIECE" → p.2 = 120) :=
  standardizeItem_abort_or_complete demoTable
    { sku := some "SKU001", quantity := some 120, unit := some "PIECE", rest := [] }
    "SKU001" 120 "PIECE" rfl rfl rfl (by decide) (by norm_num) (by decide)

/-- Claim C7: the standardizer is total — every item yields either a
standardized item or an error record carrying the original item, and an
item failing field validation yields the missing-fields error record
rather than a thrown failure. -/
theorem standardizeItem_never_throws (tbl : ConversionTable) (item : Item) :
    ((∃ r, standardizeItem tbl item = .standardized r) ∨
      (∃ msg, standardizeItem tbl item = .errorRecord item msg)) ∧
    ((strFalsy item.sku || numFalsy item.quantity || strFalsy item.unit) = true →
      standardizeItem tbl item = .errorRecord item missingFieldsMsg) := by
  constructor
  · rw [standardizeItem]
    split
    · exact Or.inr ⟨missingFieldsMsg, rfl⟩
    · split
      · exact Or.inr ⟨_, rfl⟩
      · exact Or.inl ⟨_, rfl⟩
  · exact standardizeItem_missing_fields tbl item

/-- Witness for C7: an item with every field missing is captured as a
missing-fields error record, not a thrown failure. -/
theorem standardizeItem_never_throws_witness :
    ((∃ r, standardizeItem smallTable
        { sku := none, quantity := none, unit := none, rest := [] } = .standardized r) ∨
      (∃ msg, standardizeItem smallTable
        { sku := none, quantity := none, unit := none, rest := [] } =
        .errorRecord { sku := none, quantity := none, unit := none, rest := [] } msg)) ∧
    standardizeItem smallTable
        { sku := none, quantity := none, unit := none, rest := [] } =
      .errorRecord { sku := none, quantity := none, unit := none, rest := [] }
        missingFieldsMsg :=
  ⟨(standardizeItem_never_throws smallTable
      { sku := none, quantity := none, unit := none, rest := [] }).1,
    (standardizeItem_never_throws smallTable
      { sku := none, quantity := none, unit := none, rest := [] }).2 (by decide)⟩

/-- Claim C8: a batch whose `items` sequence has exactly one item missing
its sku, all other items standardizing successfully, is processed into the
same number of per-item results in input order with exactly one error
record and all the rest successful; a payload without an `items` sequence
is rejected with the invalid-format failure. -/
theorem processInventoryData_isolation (tbl : ConversionTable) (p : Payload)
    (its : List Item)
    (hits : p.items = some its)
    (hone : its.countP (fun it => strFalsy it.sku) = 1)
    (hok : ∀ it ∈ its, strFalsy it.sku = false →
      ∃ r, standardizeItem tbl it = .standardized r) :
    (∃ b, processInventoryData tbl p = .ok b ∧
      b.items = its.map (standardizeItem tbl) ∧
      b.items.length = its.length ∧
      b.items.countP isErrorRecord = 1 ∧
      b.items.countP isStandardized = its.length - 1) ∧
    (∀ p2 : Payload, p2.items = none →
      processInventoryData tbl p2 = .error invalidFormatMsg) := by
  have hpt : ∀ it ∈ its,
      ((isErrorRecord (standardizeItem tbl it) = true) ↔ (strFalsy it.sku = true)) := by
    intro it hit
    by_cases hsk : strFalsy it.sku = true
    · rw [standardizeItem_missing_fields tbl it (by simp [hsk])]
      simp [isErrorRecord, hsk]
    · obtain ⟨r, hr⟩ := hok it hit (Bool.not_eq_true _ ▸ hsk)
      rw [hr]
      simp [isErrorRecord, hsk]
  constructor
  · refine ⟨⟨p.meta, its.map (standardizeItem tbl), tbl.version⟩, ?_, rfl, by simp, ?_, ?_⟩
    · rw [processInventoryData, hits]
    · rw [List.countP_map]
      simp only [Function.comp_def]
      rw [List.countP_congr (fun it hit => hpt it hit), hone]
    · rw [List.countP_map]
      simp only [Function.comp_def]
      have hpt2 : ∀ it ∈ its,
          ((isStandardized (standardizeItem tbl it) = true) ↔
            (decide ¬(strFalsy it.sku = true)) = true) := by
        intro it hit
        by_cases hsk : strFalsy it.sku = true
        · rw [standardizeItem_missing_fields tbl it (by simp [hsk])]
          simp [isStandardized, hsk]
        · obtain ⟨r, hr⟩ := hok it hit (Bool.not_eq_true _ ▸ hsk)
          rw [hr]
          simp [isStandardized, hsk]
      rw [List.countP_congr (fun it hit => hpt2 it hit)]
      have hlen := List.length_eq_countP_add_countP (fun it => strFalsy it.sku) its
      rw [hone] at hlen
      omega
  · intro p2 h2
    rw [processInventoryData, h2]

/-- Witness for C8: a two-item batch over the one-unit table, the first
item missing its sku, produces one error record and one standardized item. -/
theorem processInventoryData_isolation_witness :
    ∃ b, processInventoryData smallTable
        { items := some [itemNoSku, itemGood], meta := [] } = .ok b ∧
      b.items = [itemNoSku, itemGood].map (standardizeItem smallTable) ∧
      b.items.length = [itemNoSku, itemGood].length ∧
      b.items.countP isErrorRecord = 1 ∧
      b.items.countP isStandardized = [itemNoSku, itemGood].length - 1 :=
  (processInventoryData_isolation smallTable
    { items := some [itemNoSku, itemGood], meta := [] } [itemNoSku, itemGood]
    rfl (by decide)
    (by
      intro it hit hsk
      rcases List.mem_cons.mp hit with h1 | h1
      · exact absurd (h1 ▸ hsk) (by simp [itemNoSku, strFalsy])
      · have h2 : it = itemGood := by simpa using h1
        subst h2
        refine ⟨{ rest := [], sku := "A", originalQuantity := 1,
                  originalUnit := "PIECE", standardizedUnits := [("PIECE", 1)] }, ?_⟩
        rw [standardizeItem_valid_eq smallTable itemGood "A" 1 "PIECE" rfl rfl rfl
          (by simp [itemGood, strFalsy, numFalsy])]
        rw [show convertAll smallTable 1 "PIECE" "A" smallTable.supportedUnits
            = .ok [("PIECE", 1)] from by simp [smallTable, convertAll]]
        rfl)).1

/-- Claim C9: the direct conversion API does not isolate per-item
failures — an engine failure for any item makes the whole call fail with
an engine failure message and no partial results — and on success every
returned entry carries its original item, the engine's converted quantity,
the target unit, and a conversion factor that is the converted quantity
divided by the original quantity, non-finite (modelled `none`) when the
original quantity is zero. -/
theorem convertUnits_no_isolation (tbl : ConversionTable) (items : List DirectItem)
    (target : String) :
    ((∃ it ∈ items, ∃ e, convertUnit tbl it.quantity it.unit target it.sku = .error e) →
      ∃ msg, convertUnits tbl items target = .error msg ∧
        ∃ it ∈ items, convertUnit tbl it.quantity it.unit target it.sku = .error msg) ∧
    (∀ rs, convertUnits tbl items target = .ok rs →
      List.Forall₂ (fun (it : DirectItem) (r : ConvertedItem) =>
        r.item = it ∧
        convertUnit tbl it.quantity it.unit target it.sku = .ok r.convertedQuantity ∧
        r.convertedUnit = target ∧
        r.conversionFactor =
          if it.quantity = 0 then none else some (r.convertedQuantity / it.quantity))
        items rs) := by
  induction items with
  | nil =>
    constructor
    · rintro ⟨it, hit, -⟩
      exact absurd hit (by simp)
    · intro rs h
      simp only [convertUnits, Except.ok.injEq] at h
      rw [← h]
      exact List.Forall₂.nil
  | cons it its ih =>
    constructor
    · rintro ⟨x, hx, e, he⟩
      rcases List.mem_cons.mp hx with h1 | h1
      · subst h1
        refine ⟨e, ?_, x, List.mem_cons_self x its, he⟩
        rw [convertUnits, he]
      · cases hv : convertUnit tbl it.quantity it.unit target it.sku with
        | error e0 =>
          refine ⟨e0, ?_, it, List.mem_cons_self it its, hv⟩
          rw [convertUnits, hv]
        | ok c =>
          obtain ⟨msg, hmsg, x2, hx2, he2⟩ := ih.1 ⟨x, h1, e, he⟩
          refine ⟨msg, ?_, x2, List.mem_cons_of_mem it hx2, he2⟩
          rw [convertUnits, hv, hmsg]
    · intro rs h
      rw [convertUnits] at h
      cases hv : convertUnit tbl it.quantity it.unit target it.sku with
      | error e => rw [hv] at h; exact absurd h (by simp)
      | ok c =>
        rw [hv] at h
        cases hrec : convertUnits tbl its target with
        | error e => rw [hrec] at h; exact absurd h (by simp)
        | ok rest =>
          rw [hrec] at h
          simp only [Except.ok.injEq] at h
          rw [← h]
          exact List.Forall₂.cons ⟨rfl, hv, rfl, rfl⟩ (ih.2 rest hrec)

/-- Witness for C9: a single item in a unit with no rule toward PIECE
aborts the whole direct conversion call with the engine's failure. -/
theorem convertUnits_no_isolation_witness :
    ∃ msg, convertUnits demoTable
        [{ sku := some "X", quantity := 1, unit := "BOGUS", rest := [] }] "PIECE" =
        .error msg ∧
      ∃ it ∈ [({ sku := some "X", quantity := 1, unit := "BOGUS", rest := [] } : DirectItem)],
        convertUnit demoTable it.quantity it.unit "PIECE" it.sku = .error msg :=
  (convertUnits_no_isolation demoTable
    [{ sku := some "X", quantity := 1, unit := "BOGUS", rest := [] }] "PIECE").1
    ⟨{ sku := some "X", quantity := 1, unit := "BOGUS", rest := [] }, by simp,
      "No conversion rule found for BOGUS to PIECE", rfl⟩

/-- Claim C10: under the spec's concrete table, standardizing
SKU001 / 120 PIECE succeeds with PIECE mapped to 120, BOX to 12 (product
override 10) and CARTON to 1.5 (product override 80). -/
theorem standardizeItem_demo_scenario :
    standardizeItem demoTable
      { sku := some "SKU001", quantity := some 120, unit := some "PIECE", rest := [] } =
      .standardized
        { rest := [], sku := "SKU001", originalQuantity := 120, originalUnit := "PIECE",
          standardizedUnits := [("PIECE", 120), ("BOX", 12), ("CARTON", 3/2)] } := by
  have h2 : jsIndexOf demoTable.unitHierarchy "PIECE" = 0 := by decide
  have h3 : jsIndexOf demoTable.unitHierarchy "BOX" = 1 := by decide
  have h4 : jsIndexOf demoTable.unitHierarchy "CARTON" = 2 := by decide
  have hpb : convertUnit demoTable 120 "PIECE" "BOX" (some "SKU001") = .ok 12 := by
    have h1 : List.lookup "PIECE_TO_BOX" demoTable.conversionRules
        = some ⟨12, [("SKU001", 10)]⟩ := by decide
    simp [convertUnit, h1, h2, h3, rawResult, resolveFactor, round2, jsRound]
    norm_num
  have hpc : convertUnit demoTable 120 "PIECE" "CARTON" (some "SKU001") = .ok (3/2) := by
    have h1 : List.lookup "PIECE_TO_CARTON" demoTable.conversionRules
        = some ⟨96, [("SKU001", 80)]⟩ := by decide
    simp [convertUnit, h1, h2, h4, rawResult, resolveFactor, round2, jsRound]
    norm_num
  rw [standardizeItem_valid_eq demoTable _ "SKU001" 120 "PIECE" rfl rfl rfl
    (by simp [strFalsy, numFalsy])]
  rw [show convertAll demoTable 120 "PIECE" "SKU001" demoTable.supportedUnits
      = .ok [("PIECE", 120), ("BOX", 12), ("CARTON", 3/2)] from by
    show convertAll demoTable 120 "PIECE" "SKU001" ["PIECE", "BOX", "CARTON"] = _
    simp [convertAll, hpb, hpc]]

end InventoryUnitConverter
